import Mathlib

/-
  Verification of g2o/stuff/string_tools.cpp (ORB_SLAM3 third-party copy).

  Strings are modelled as `List Char`.  The formatted-string builder
  `portable_vasprintf` is embedded with an instrumented execution result that
  records the returned value, the transferred buffer, the heap-allocation
  requests and releases, the signals raised, and whether a formatting call
  ever consumed an already-consumed variadic argument cursor.  The variadic
  formatting collaborator `vsnprintf` is abstracted by the rendering it would
  produce (`none` = formatting error), which is the bounded-format contract
  the module depends on.  `trim`, `strSplit` and `readLine` are transcribed
  over `List Char` together with a model of the C++ string searching
  primitives and of an input stream with eofbit/failbit flags.
-/

set_option maxRecDepth 100000

namespace G2o

/-- A heap buffer: allocation id, capacity in bytes (the size passed to
`malloc`/`realloc`), and its byte contents (length = capacity). -/
structure Buffer where
  id : Nat
  cap : Nat
  data : List Char
  deriving Repr, DecidableEq

/-- State of a C variadic argument cursor (`va_list`): `consumed` is set once
it has been traversed by a formatting call; traversing it again is the
undefined behaviour the code avoids via `va_copy`. -/
structure VaList where
  consumed : Bool
  deriving Repr, DecidableEq

/-- Effect of `vsnprintf` on buffer contents `data` with size bound `n`:
writes at most `n - 1` characters of the rendered text `s`, then a NUL
terminator; bytes beyond that are left unchanged.  Writes nothing when
`n = 0`. -/
def writeCs (data : List Char) (n : Nat) (s : List Char) : List Char :=
  if n = 0 then data
  else
    s.take (min s.length (n - 1)) ++ ['\x00'] ++ data.drop (min s.length (n - 1) + 1)

/-- Model of the bounded-format primitive `vsnprintf`.  `r` is the rendering
determined by the format template and the argument values (`none` =
formatting error, reported as `-1`).  Returns the full required length
(independent of truncation), the updated buffer, the consumed argument
cursor, and a flag recording whether the call observed an already-consumed
cursor (undefined behaviour in C). -/
def vsnprintfModel (buf : Buffer) (n : Nat) (r : Option (List Char)) (ap : VaList) :
    Int × Buffer × VaList × Bool :=
  match r with
  | none => (-1, buf, ⟨true⟩, ap.consumed)
  | some s => ((s.length : Int), { buf with data := writeCs buf.data n s }, ⟨true⟩, ap.consumed)

/-- Contents after `realloc` to capacity `n`: old bytes up to `n` preserved,
any additional bytes uninitialized. -/
def reallocData (old : List Char) (n : Nat) : List Char :=
  old.take n ++ List.replicate (n - old.length) '?'

/-- Instrumented result of one `portable_vasprintf` call: the returned `int`,
the buffer stored through `*strp` (`none` if untouched), the number of heap
allocation requests (`malloc`/`realloc` calls), the successful allocations
as (id, capacity) pairs, the ids released (by `free`, or by a successful
`realloc` retiring its argument), the number of signals raised, and the
undefined-behaviour flag from `vsnprintfModel`. -/
structure VaspResult where
  ret : Int
  strp : Option Buffer
  allocReqs : Nat
  allocs : List (Nat × Nat)
  frees : List Nat
  signals : Nat
  ub : Bool
  deriving Repr, DecidableEq

/-- Direct transcription of `portable_vasprintf` (string_tools.cpp:49-96).
`r1`, `r2` are the renderings reported by the first and second `vsnprintf`
calls; `m1`, `m2` tell whether the `malloc` and `realloc` requests succeed;
`ap` is the caller's variadic cursor. -/
def portable_vasprintf (r1 r2 : Option (List Char)) (m1 m2 : Bool) (ap : VaList) :
    VaspResult :=
  -- std::raise(SIGINT);
  let sig := 1
  -- int length = 512; char* buffer = (char*)malloc(length); if (!buffer) return -1;
  let length := 512
  if !m1 then
    { ret := -1, strp := none, allocReqs := 1, allocs := [], frees := [],
      signals := sig, ub := false }
  else
    let buffer : Buffer := ⟨0, length, List.replicate length '?'⟩
    -- va_copy(ap_copy, ap);
    let ap_copy : VaList := ap
    -- int nchars = vsnprintf(buffer, length, fmt, ap_copy);
    let res1 := vsnprintfModel buffer length r1 ap_copy
    let nchars := res1.1
    let buffer1 := res1.2.1
    let ub1 := res1.2.2.2
    if nchars < 0 then
      -- vsnprintf error: free(buffer); return -1;
      { ret := -1, strp := none, allocReqs := 1, allocs := [(0, length)], frees := [0],
        signals := sig, ub := ub1 }
    else if nchars < (length : Int) then
      -- buffer was big enough: *strp = buffer; return nchars;
      { ret := nchars, strp := some buffer1, allocReqs := 1, allocs := [(0, length)],
        frees := [], signals := sig, ub := ub1 }
    else
      -- length = nchars + 1; char* new_buffer = (char*)realloc(buffer, length);
      let length2 := nchars.toNat + 1
      if !m2 then
        -- realloc failed: free(buffer); return -1;
        { ret := -1, strp := none, allocReqs := 2, allocs := [(0, length)], frees := [0],
          signals := sig, ub := ub1 }
      else
        -- successful realloc retires allocation 0 and produces allocation 1
        let new_buffer : Buffer := ⟨1, length2, reallocData buffer1.data length2⟩
        -- nchars = vsnprintf(new_buffer, length, fmt, ap);
        let res2 := vsnprintfModel new_buffer length2 r2 ap
        let nchars2 := res2.1
        let buffer2 := res2.2.1
        let ub2 := res2.2.2.2
        if nchars2 < 0 then
          -- vsnprintf error: free(new_buffer);
          { ret := nchars2, strp := none, allocReqs := 2,
            allocs := [(0, length), (1, length2)], frees := [0, 1],
            signals := sig, ub := ub1 || ub2 }
        else
          { ret := nchars2, strp := some buffer2, allocReqs := 2,
            allocs := [(0, length), (1, length2)], frees := [0],
            signals := sig, ub := ub1 || ub2 }

/-- Transcription of `portable_asprintf` (string_tools.cpp:99-106): raises
SIGINT itself, starts a fresh variadic cursor, and delegates. -/
def portable_asprintf (r1 r2 : Option (List Char)) (m1 m2 : Bool) : VaspResult :=
  let res := portable_vasprintf r1 r2 m1 m2 ⟨false⟩
  { res with signals := res.signals + 1 }

/-- Reading a transferred buffer as a C string: the characters before the
first NUL terminator. -/
def cString (b : Buffer) : List Char :=
  b.data.takeWhile (fun c => c ≠ '\x00')

/-- Transcription of `formatString` (string_tools.cpp:155-170): builds via
`portable_vasprintf`; on `-1` leaves the result empty and prints a
diagnostic to the error channel (the Bool component of the result). -/
def formatString (r1 r2 : Option (List Char)) (m1 m2 : Bool) : List Char × Bool :=
  let res := portable_vasprintf r1 r2 m1 m2 ⟨false⟩
  if res.ret ≠ -1 then
    match res.strp with
    | some b => (cString b, false)
    | none => ([], false)
  else
    ([], true)

/-- The whitespace set " \t\n" used by the trim family. -/
def isWs (c : Char) : Bool := c = ' ' || c = '\t' || c = '\n'

/-- Model of `s.find_first_not_of(" \t\n")`: index of the first character
outside the whitespace set; `none` models `npos`. -/
def find_first_not_of : List Char → Option Nat
  | [] => none
  | c :: cs => if isWs c then (find_first_not_of cs).map (· + 1) else some 0

/-- Model of `s.find_last_not_of(" \t\n")`: index of the last character
outside the whitespace set; `none` models `npos`. -/
def find_last_not_of (s : List Char) : Option Nat :=
  (find_first_not_of s.reverse).map (fun k => s.length - 1 - k)

/-- Transcription of `trim` (string_tools.cpp:108-117).  The `(some, none)`
case cannot occur; it transcribes `substr(b, npos - b + 1)`, which takes the
rest of the string. -/
def trim (s : List Char) : List Char :=
  if s.length = 0 then s
  else
    match find_first_not_of s, find_last_not_of s with
    | some b, some e => (s.drop b).take (e - b + 1)
    | some b, none => s.drop b
    | none, _ => []

/-- First position at or after index `i` whose character is in `delims`;
`i` is the index in the original string of the head of `l`.  `none` models
`std::string::npos`. -/
def findFrom (delims : List Char) : List Char → Nat → Option Nat
  | [], _ => none
  | c :: cs, i => if delims.contains c then some i else findFrom delims cs (i + 1)

/-- Model of `str.find_first_of(delimiters, lastPos)`. -/
def find_first_of (str delims : List Char) (start : Nat) : Option Nat :=
  findFrom delims (str.drop start) start

/-- The do-while loop of `strSplit`: push `substr(lastPos, pos - lastPos)`
and continue after the found delimiter while `pos != npos`. -/
def strSplitLoop (str delims : List Char) (lastPos : Nat) : List (List Char) :=
  match h : find_first_of str delims lastPos with
  | none => [str.drop lastPos]
  | some pos => (str.drop lastPos).take (pos - lastPos) :: strSplitLoop str delims (pos + 1)
termination_by str.length + 1 - lastPos
decreasing_by
  have key : ∀ (l : List Char) (i p : Nat),
      findFrom delims l i = some p → i ≤ p ∧ p < i + l.length := by
    intro l
    induction l with
    | nil => intro i p h0; simp [findFrom] at h0
    | cons c cs ih =>
      intro i p h0
      unfold findFrom at h0
      split_ifs at h0 with hc
      · injection h0 with h0'
        simp only [List.length_cons, ← h0']
        omega
      · have := ih (i + 1) p h0
        simp only [List.length_cons]
        omega
  have hb := key (str.drop lastPos) lastPos pos h
  rw [List.length_drop] at hb
  omega

/-- Transcription of `strSplit` (string_tools.cpp:203-216). -/
def strSplit (str delims : List Char) : List (List Char) :=
  strSplitLoop str delims 0

/-- Reference splitter following the spec's words: split at every occurrence
of any delimiter character with no collapsing; the empty string yields one
empty token. -/
def splitSpec (delims : List Char) : List Char → List (List Char)
  | [] => [[]]
  | c :: cs =>
    if delims.contains c then [] :: splitSpec delims cs
    else
      match splitSpec delims cs with
      | t :: ts => (c :: t) :: ts
      | [] => [[c]]

/-- A C++ input stream over in-memory contents: the data, the read position,
and the eofbit/failbit state flags. -/
structure IStream where
  data : List Char
  pos : Nat
  eofbit : Bool
  failbit : Bool
  deriving Repr, DecidableEq

/-- A freshly opened stream over the given contents. -/
def mkStream (data : List Char) : IStream := ⟨data, 0, false, false⟩

/-- Model of `istream::get(streambuf&)` with the default newline delimiter:
extracts characters up to but not including the next newline, appending them
to `line`.  Sets eofbit when extraction stops because the data ran out,
failbit when no character was extracted (the code comment: "fail is set on
empty lines"); a stream whose flags are already set fails immediately. -/
def istreamGet (is : IStream) (line : List Char) : IStream × List Char :=
  if is.eofbit || is.failbit then
    ({ is with failbit := true }, line)
  else
    let avail := is.data.drop is.pos
    let chunk := avail.takeWhile (fun c => c ≠ '\n')
    let hitEnd := chunk.length = avail.length
    ({ is with pos := is.pos + chunk.length,
               eofbit := is.eofbit || decide hitEnd,
               failbit := is.failbit || chunk.isEmpty }, line ++ chunk)

/-- Modelled from the spec: `G2O_FSKIP_LINE` comes from macros.h, which is
not part of this repository snapshot; `readLine` uses it to "read \n not
read by get()", and the spec says the newline on which extraction stopped is
discarded.  We model it as consuming one newline at the cursor when
present. -/
def fskipLine (is : IStream) : IStream :=
  if is.data.getD is.pos ' ' = '\n' ∧ is.pos < is.data.length then
    { is with pos := is.pos + 1 }
  else is

/-- Transcription of `readLine` (string_tools.cpp:232-243): returns the new
stream state, the returned count (`-1` is the end-of-stream sentinel), and
the contents of the caller's line buffer after the call. -/
def readLine (is : IStream) (currentLine : List Char) : IStream × Int × List Char :=
  if is.eofbit then (is, -1, currentLine)
  else
    -- currentLine.str(""); currentLine.clear(); is.get(*currentLine.rdbuf());
    let r := istreamGet is []
    let is1 := r.1
    let line1 := r.2
    -- if (is.fail()) is.clear();
    let is2 := if is1.failbit then { is1 with eofbit := false, failbit := false } else is1
    -- G2O_FSKIP_LINE(is);
    let is3 := fskipLine is2
    (is3, (line1.length : Int), line1)

/-- Iterated `readLine` calls, collecting (returned value, buffer contents
after the call). -/
def readLines : Nat → IStream → List Char → List (Int × List Char)
  | 0, _, _ => []
  | n + 1, is, line =>
    let r := readLine is line
    (r.2.1, r.2.2) :: readLines n r.1 r.2.2

theorem findFrom_some_bounds (delims : List Char) (l : List Char) (i p : Nat)
    (h : findFrom delims l i = some p) : i ≤ p ∧ p < i + l.length := by
  induction l generalizing i with
  | nil => simp [findFrom] at h
  | cons c cs ih =>
    unfold findFrom at h
    split_ifs at h with hc
    · injection h with h'
      simp only [List.length_cons, ← h']
      omega
    · have := ih (i + 1) h
      simp only [List.length_cons]
      omega

theorem splitSpec_cons (delims : List Char) (c : Char) (cs : List Char) :
    splitSpec delims (c :: cs) =
      if delims.contains c then [] :: splitSpec delims cs
      else
        match splitSpec delims cs with
        | t :: ts => (c :: t) :: ts
        | [] => [[c]] := by
  rfl

theorem findFrom_none (delims : List Char) (l : List Char) (i : Nat)
    (h : findFrom delims l i = none) : ∀ c ∈ l, delims.contains c = false := by
  induction l generalizing i with
  | nil => simp
  | cons c cs ih =>
    unfold findFrom at h
    split_ifs at h with hc
    intro x hx
    rcases List.mem_cons.1 hx with rfl | hx
    · simpa using hc
    · exact ih (i + 1) h x hx

theorem splitSpec_no_delim (delims l : List Char)
    (h : ∀ c ∈ l, delims.contains c = false) : splitSpec delims l = [l] := by
  induction l with
  | nil => rfl
  | cons c cs ih =>
    have hc' : delims.contains c = false := h c (by simp)
    rw [splitSpec_cons, if_neg (by rw [hc']; simp)]
    rw [ih (fun x hx => h x (by simp [hx]))]

theorem splitSpec_append (delims pre suf : List Char) (c : Char)
    (hpre : ∀ x ∈ pre, delims.contains x = false) (hc : delims.contains c = true) :
    splitSpec delims (pre ++ c :: suf) = pre :: splitSpec delims suf := by
  induction pre with
  | nil =>
    simp only [List.nil_append]
    rw [splitSpec_cons, if_pos hc]
  | cons x xs ih =>
    have hx : delims.contains x = false := hpre x (by simp)
    simp only [List.cons_append]
    rw [splitSpec_cons, if_neg (by rw [hx]; simp), ih (fun y hy => hpre y (by simp [hy]))]

theorem findFrom_some_decomp (delims : List Char) (l : List Char) (i p : Nat)
    (h : findFrom delims l i = some p) :
    ∃ pre c suf, l = pre ++ c :: suf ∧ pre.length = p - i ∧
      (∀ x ∈ pre, delims.contains x = false) ∧ delims.contains c = true := by
  induction l generalizing i with
  | nil => simp [findFrom] at h
  | cons c cs ih =>
    unfold findFrom at h
    split_ifs at h with hc
    · injection h with h'
      exact ⟨[], c, cs, rfl, by simp [← h'], by simp, hc⟩
    · obtain ⟨pre, c', suf, hl, hlenp, hpre, hc'⟩ := ih (i + 1) h
      have hb := findFrom_some_bounds delims cs (i + 1) p h
      refine ⟨c :: pre, c', suf, by rw [hl]; rfl, ?_, ?_, hc'⟩
      · simp only [List.length_cons, hlenp]
        omega
      · intro x hx
        rcases List.mem_cons.1 hx with rfl | hx
        · simpa using hc
        · exact hpre x hx

theorem strSplitLoop_eq (str delims : List Char) :
    ∀ (k lastPos : Nat), str.length + 1 - lastPos ≤ k →
      strSplitLoop str delims lastPos = splitSpec delims (str.drop lastPos) := by
  intro k
  induction k with
  | zero =>
    intro lastPos hk
    have hdrop : str.drop lastPos = [] := List.drop_eq_nil_of_le (by omega)
    rw [strSplitLoop]
    split
    · rw [hdrop]
      rfl
    · next pos h =>
      rw [find_first_of, hdrop] at h
      simp [findFrom] at h
  | succ k ihk =>
    intro lastPos hk
    rw [strSplitLoop]
    split
    · next h =>
      exact (splitSpec_no_delim _ _ (findFrom_none _ _ _ h)).symm
    · next pos h =>
      have hb := findFrom_some_bounds delims (str.drop lastPos) lastPos pos h
      rw [List.length_drop] at hb
      obtain ⟨pre, c, suf, hl, hlenp, hpre, hc⟩ := findFrom_some_decomp _ _ _ _ h
      rw [ihk (pos + 1) (by omega)]
      have hdropsuf : str.drop (pos + 1) = suf := by
        have h1 : str.drop (pos + 1) = (str.drop lastPos).drop (pos + 1 - lastPos) := by
          rw [List.drop_drop]
          congr 1
          omega
        rw [h1, hl]
        have h2 : pos + 1 - lastPos = pre.length + 1 := by omega
        rw [h2]
        simpa using @List.drop_append Char pre (c :: suf) 1
      rw [hdropsuf, hl, splitSpec_append delims pre suf c hpre hc]
      congr 1
      exact List.take_left' hlenp

theorem strSplit_eq_splitSpec (s d : List Char) : strSplit s d = splitSpec d s := by
  rw [strSplit, strSplitLoop_eq s d (s.length + 1) 0 (by omega)]
  simp

theorem ffno_some_decomp (s : List Char) (b : Nat) (h : find_first_not_of s = some b) :
    ∃ pre c suf, s = pre ++ c :: suf ∧ pre.length = b ∧
      (∀ x ∈ pre, isWs x = true) ∧ isWs c = false := by
  induction s generalizing b with
  | nil => simp [find_first_not_of] at h
  | cons c cs ih =>
    unfold find_first_not_of at h
    split_ifs at h with hw
    · rcases hmap : find_first_not_of cs with _ | b'
      · rw [hmap] at h
        simp at h
      · rw [hmap] at h
        simp only [Option.map_some'] at h
        injection h with h'
        obtain ⟨pre, c', suf, hl, hlenp, hpre, hc'⟩ := ih b' hmap
        refine ⟨c :: pre, c', suf, by rw [hl]; rfl, ?_, ?_, hc'⟩
        · simp only [List.length_cons, hlenp]
          omega
        · intro x hx
          rcases List.mem_cons.1 hx with rfl | hx
          · exact hw
          · exact hpre x hx
    · injection h with h'
      refine ⟨[], c, cs, rfl, by simp [← h'], by simp, ?_⟩
      simp at hw
      exact hw

theorem ffno_none_all_ws (s : List Char) (h : find_first_not_of s = none) :
    ∀ c ∈ s, isWs c = true := by
  induction s with
  | nil => simp
  | cons c cs ih =>
    unfold find_first_not_of at h
    split_ifs at h with hw
    have hcs : find_first_not_of cs = none := by
      rcases hmap : find_first_not_of cs with _ | b'
      · rfl
      · rw [hmap] at h
        simp at h
    intro x hx
    rcases List.mem_cons.1 hx with rfl | hx
    · exact hw
    · exact ih hcs x hx

theorem ffno_none_of_all_ws (s : List Char) (h : ∀ c ∈ s, isWs c = true) :
    find_first_not_of s = none := by
  induction s with
  | nil => rfl
  | cons c cs ih =>
    unfold find_first_not_of
    rw [if_pos (h c (by simp)), ih (fun x hx => h x (by simp [hx]))]
    rfl

theorem ffno_cons_not_ws (c : Char) (cs : List Char) (h : isWs c = false) :
    find_first_not_of (c :: cs) = some 0 := by
  unfold find_first_not_of
  rw [if_neg (by rw [h]; simp)]

theorem trim_repr (s : List Char) (hne : trim s ≠ []) :
    ∃ hd tl u z, trim s = hd :: tl ∧ isWs hd = false ∧
      trim s = u ++ [z] ∧ isWs z = false := by
  have hs : ¬ (s.length = 0) := by
    intro h0
    apply hne
    unfold trim
    rw [if_pos h0]
    exact List.length_eq_zero.mp h0
  rcases hb : find_first_not_of s with _ | b
  · exfalso
    apply hne
    unfold trim
    rw [if_neg hs, hb]
  rcases he : find_first_not_of s.reverse with _ | k
  · exfalso
    obtain ⟨pre, c, suf, hl, hlenb, hpreb, hcb⟩ := ffno_some_decomp s b hb
    have hmem : c ∈ s.reverse := by
      rw [List.mem_reverse, hl]
      simp
    have := ffno_none_all_ws s.reverse he c hmem
    rw [this] at hcb
    exact absurd hcb (by simp)
  · have hfl : find_last_not_of s = some (s.length - 1 - k) := by
      unfold find_last_not_of
      rw [he]
      rfl
    obtain ⟨pre, cb, sufb, hlb, hlenb, hpreb, hcb⟩ := ffno_some_decomp s b hb
    obtain ⟨rpre, ce, rsuf, hlr, hlenr, hprer, hce⟩ := ffno_some_decomp s.reverse k he
    have hsE : s = (rsuf.reverse ++ [ce]) ++ rpre.reverse := by
      have h1 : s.reverse.reverse = s := List.reverse_reverse s
      rw [← h1, hlr]
      simp
    have hE : rsuf.reverse.length = s.length - 1 - k := by
      have h2 : s.length = s.reverse.length := (List.length_reverse s).symm
      rw [h2, hlr]
      simp only [List.length_append, List.length_cons, List.length_reverse, hlenr]
      omega
    set e := s.length - 1 - k with hedef
    have hbe : b ≤ e := by
      by_contra hlt
      push_neg at hlt
      have hp1 : (rsuf.reverse ++ [ce]) <+: s := ⟨rpre.reverse, hsE.symm⟩
      have hp2 : pre <+: s := ⟨cb :: sufb, hlb.symm⟩
      have hlen1 : (rsuf.reverse ++ [ce]).length ≤ pre.length := by
        simp only [List.length_append, List.length_cons, List.length_nil, hE, hlenb]
        omega
      have hp3 := List.prefix_of_prefix_length_le hp1 hp2 hlen1
      have hmem : ce ∈ pre := hp3.subset (by simp)
      have := hpreb ce hmem
      rw [this] at hce
      exact absurd hce (by simp)
    have htrim : trim s = (s.drop b).take (e - b + 1) := by
      unfold trim
      rw [if_neg hs, hb, hfl]
    have hdropb : s.drop b = cb :: sufb := by
      rw [hlb]
      exact List.drop_left' hlenb
    have hhead : trim s = cb :: sufb.take (e - b) := by
      rw [htrim, hdropb]
      rfl
    have hlast : trim s = rsuf.reverse.drop b ++ [ce] := by
      rw [htrim]
      have hd2 : s.drop b = rsuf.reverse.drop b ++ ([ce] ++ rpre.reverse) := by
        rw [hsE, List.append_assoc]
        exact List.drop_append_of_le_length (by rw [hE]; omega)
      rw [hd2]
      have hlen3 : (rsuf.reverse.drop b).length = e - b := by
        simp only [List.length_drop, hE]
      have h4 : e - b + 1 = (rsuf.reverse.drop b).length + 1 := by
        rw [hlen3]
      rw [h4]
      rw [List.take_append]
      rfl
    exact ⟨cb, sufb.take (e - b), rsuf.reverse.drop b, ce, hhead, hcb, hlast, hce⟩

/-- Claim C1 is false as stated: for a rendering of length 3 (< 512) the
builder succeeds on the first pass, but the buffer it transfers is the
512-byte probe buffer, not a buffer of rendered-length + 1 = 4 bytes. -/
theorem c1_counterexample :
    (portable_vasprintf (some ['a', 'b', 'c']) none true true ⟨false⟩).ret = 3 ∧
    (portable_vasprintf (some ['a', 'b', 'c']) none true true ⟨false⟩).strp.map Buffer.cap =
      some 512 ∧
    (portable_vasprintf (some ['a', 'b', 'c']) none true true ⟨false⟩).strp.map Buffer.cap ≠
      some (3 + 1) := by
  refine ⟨rfl, rfl, by decide⟩

/-- Claim C1 (amended): for every rendering strictly shorter than the probe
capacity 512, the builder succeeds on the first pass without re-rendering
(one allocation request, result independent of any second rendering) and
transfers the 512-byte probe buffer, whose first rendered-length + 1 bytes
hold the terminated rendered text. -/
theorem c1_first_pass_amended (s : List Char) (r2 : Option (List Char)) (m2 : Bool)
    (ap : VaList) (hlen : s.length < 512) :
    (portable_vasprintf (some s) r2 true m2 ap).ret = (s.length : Int) ∧
    (portable_vasprintf (some s) r2 true m2 ap).allocReqs = 1 ∧
    ∃ b, (portable_vasprintf (some s) r2 true m2 ap).strp = some b ∧
      b.cap = 512 ∧ b.data.take (s.length + 1) = s ++ ['\x00'] := by
  have h0 : ¬ ((s.length : Int) < 0) := by simp
  have h1 : (s.length : Int) < ((512 : Nat) : Int) := by exact_mod_cast hlen
  have hmin : min s.length (512 - 1) = s.length := Nat.min_eq_left (by omega)
  unfold portable_vasprintf vsnprintfModel
  simp only [Bool.not_true, Bool.false_eq_true, if_false, ite_false, ite_true, h0, h1,
    if_neg, if_pos]
  refine ⟨trivial, trivial, ⟨_, rfl, rfl, ?_⟩⟩
  show (writeCs (List.replicate 512 '?') 512 s).take (s.length + 1) = s ++ ['\x00']
  unfold writeCs
  rw [if_neg (by norm_num), hmin, List.take_length, List.take_left' (by simp)]

/-- Witness for C1 (amended) at the concrete rendering "hi". -/
theorem c1_first_pass_amended_witness :
    (portable_vasprintf (some ['h', 'i']) none true false ⟨false⟩).ret =
      (((['h', 'i'] : List Char)).length : Int) ∧
    (portable_vasprintf (some ['h', 'i']) none true false ⟨false⟩).allocReqs = 1 ∧
    ∃ b, (portable_vasprintf (some ['h', 'i']) none true false ⟨false⟩).strp = some b ∧
      b.cap = 512 ∧
      b.data.take ((['h', 'i'] : List Char).length + 1) = ['h', 'i'] ++ ['\x00'] :=
  c1_first_pass_amended ['h', 'i'] none false ⟨false⟩ (by decide)

/-- Claim C2: the fit test is strict.  In general the retry pass (a second
allocation request) happens exactly when the reported required length is at
least the probe capacity 512; concretely, a rendering of length 511 succeeds
on the first pass while a rendering of length 512 triggers the retry. -/
theorem c2_strict_fit_boundary (s : List Char) (r2 : Option (List Char)) (m2 : Bool)
    (ap : VaList) :
    ((portable_vasprintf (some s) r2 true m2 ap).allocReqs = 2 ↔ 512 ≤ s.length) ∧
    (portable_vasprintf (some (List.replicate 511 'a')) none true true ⟨false⟩).allocReqs
      = 1 ∧
    (portable_vasprintf (some (List.replicate 511 'a')) none true true ⟨false⟩).ret = 511 ∧
    (portable_vasprintf (some (List.replicate 512 'a')) (some (List.replicate 512 'a'))
      true true ⟨false⟩).allocReqs = 2 ∧
    (portable_vasprintf (some (List.replicate 512 'a')) (some (List.replicate 512 'a'))
      true true ⟨false⟩).ret = 512 := by
  refine ⟨?_, rfl, rfl, rfl, rfl⟩
  unfold portable_vasprintf vsnprintfModel
  rcases r2 with _ | s2 <;> cases m2 <;>
    simp <;> split_ifs <;> simp_all <;> omega

/-- Witness for C2 at a concrete rendering of length 600. -/
theorem c2_strict_fit_boundary_witness :
    (portable_vasprintf (some (List.replicate 600 'c')) none true false ⟨false⟩).allocReqs
      = 2 :=
  (c2_strict_fit_boundary (List.replicate 600 'c') none false ⟨false⟩).1.mpr (by decide)

/-- Claim C3: for every rendering of length at least 512 the builder takes
the retry path with a fresh argument cursor for the probe pass (no reuse of
a consumed cursor), allocates a second buffer of required-length + 1 bytes,
and transfers it holding exactly the reference rendering plus terminator;
two allocations occur and the first is released. -/
theorem c3_retry_rerender (s : List Char) (ap : VaList) (hap : ap.consumed = false)
    (hlen : 512 ≤ s.length) :
    (portable_vasprintf (some s) (some s) true true ap).ret = (s.length : Int) ∧
    (portable_vasprintf (some s) (some s) true true ap).strp =
      some ⟨1, s.length + 1, s ++ ['\x00']⟩ ∧
    (portable_vasprintf (some s) (some s) true true ap).allocs =
      [(0, 512), (1, s.length + 1)] ∧
    (portable_vasprintf (some s) (some s) true true ap).frees = [0] ∧
    (portable_vasprintf (some s) (some s) true true ap).ub = false := by
  have h0 : ¬ ((s.length : Int) < 0) := by simp
  have h1 : ¬ ((s.length : Int) < ((512 : Nat) : Int)) := by exact_mod_cast not_lt.2 hlen
  have hmin1 : min s.length (512 - 1) = 511 := Nat.min_eq_right (by omega)
  have hd1 : writeCs (List.replicate 512 '?') 512 s = s.take 511 ++ ['\x00'] := by
    unfold writeCs
    rw [if_neg (by norm_num), hmin1]
    simp [List.drop_replicate]
  have hlen1 : (s.take 511 ++ ['\x00'] : List Char).length = 512 := by
    simp [List.length_take]
    omega
  have hd2 : reallocData (s.take 511 ++ ['\x00']) (s.length + 1) =
      (s.take 511 ++ ['\x00']) ++ List.replicate (s.length + 1 - 512) '?' := by
    unfold reallocData
    rw [List.take_of_length_le (by rw [hlen1]; omega), hlen1]
  have hlen2 : ((s.take 511 ++ ['\x00']) ++ List.replicate (s.length + 1 - 512) '?' :
      List Char).length = s.length + 1 := by
    simp [List.length_take]
    omega
  have hd3 : writeCs ((s.take 511 ++ ['\x00']) ++ List.replicate (s.length + 1 - 512) '?')
      (s.length + 1) s = s ++ ['\x00'] := by
    unfold writeCs
    rw [if_neg (by omega)]
    have hm : min s.length (s.length + 1 - 1) = s.length := by omega
    rw [hm, List.take_length, List.drop_eq_nil_of_le (by rw [hlen2])]
    simp
  unfold portable_vasprintf vsnprintfModel
  simp only [Bool.not_true, Bool.false_eq_true, if_false, ite_false, ite_true, h0, h1, if_neg,
    not_false_iff, Int.toNat_natCast, hd1, hd2, hd3, hap]
  simp [hd1, hd2, hd3, hap, Int.toNat_natCast, h0, h1]

/-- Witness for C3 at the concrete rendering of 512 'b' characters. -/
theorem c3_retry_rerender_witness :
    (portable_vasprintf (some (List.replicate 512 'b')) (some (List.replicate 512 'b'))
      true true ⟨false⟩).strp =
      some ⟨1, (List.replicate 512 'b' : List Char).length + 1,
        List.replicate 512 'b' ++ ['\x00']⟩ :=
  (c3_retry_rerender (List.replicate 512 'b') ⟨false⟩ rfl (by simp)).2.1

/-- Claim C4: whenever the builder fails (negative return) no buffer is
transferred and every allocation it made has been released; a negative
return happens exactly on the failure paths (probe malloc failure, probe
format error, or, past the fit test, realloc failure or retry format
error), and failure is always distinct from success (negative return iff no
buffer transferred). -/
theorem c4_failure_paths (r1 r2 : Option (List Char)) (m1 m2 : Bool) (ap : VaList) :
    ((portable_vasprintf r1 r2 m1 m2 ap).ret < 0 ↔
      (m1 = false ∨ r1 = none ∨
        (512 ≤ (r1.getD []).length ∧ (m2 = false ∨ r2 = none)))) ∧
    ((portable_vasprintf r1 r2 m1 m2 ap).ret < 0 ↔
      (portable_vasprintf r1 r2 m1 m2 ap).strp = none) ∧
    ((portable_vasprintf r1 r2 m1 m2 ap).ret < 0 →
      ∀ a ∈ (portable_vasprintf r1 r2 m1 m2 ap).allocs,
        a.1 ∈ (portable_vasprintf r1 r2 m1 m2 ap).frees) := by
  unfold portable_vasprintf vsnprintfModel
  rcases r1 with _ | s1 <;> rcases r2 with _ | s2 <;> cases m1 <;> cases m2 <;>
    simp <;> split_ifs <;> simp_all <;> omega

/-- Witness for C4: a probe-pass format error yields no transferred buffer. -/
theorem c4_failure_paths_witness :
    (portable_vasprintf none none true true ⟨false⟩).strp = none :=
  (c4_failure_paths none none true true ⟨false⟩).2.1.mp (by decide)

/-- Claim C5: every call makes exactly one or two allocation requests, the
released ids contain no duplicate (no double free), and every successful
allocation is resolved exactly one way: either it is the transferred buffer
and is not released, or it is released and is not transferred. -/
theorem c5_allocation_discipline (r1 r2 : Option (List Char)) (m1 m2 : Bool)
    (ap : VaList) :
    ((portable_vasprintf r1 r2 m1 m2 ap).allocReqs = 1 ∨
      (portable_vasprintf r1 r2 m1 m2 ap).allocReqs = 2) ∧
    (portable_vasprintf r1 r2 m1 m2 ap).frees.Nodup ∧
    (∀ a ∈ (portable_vasprintf r1 r2 m1 m2 ap).allocs,
      ((portable_vasprintf r1 r2 m1 m2 ap).strp.map Buffer.id = some a.1 ∧
        a.1 ∉ (portable_vasprintf r1 r2 m1 m2 ap).frees) ∨
      (a.1 ∈ (portable_vasprintf r1 r2 m1 m2 ap).frees ∧
        (portable_vasprintf r1 r2 m1 m2 ap).strp.map Buffer.id ≠ some a.1)) := by
  unfold portable_vasprintf vsnprintfModel
  rcases r1 with _ | s1 <;> rcases r2 with _ | s2 <;> cases m1 <;> cases m2 <;>
    simp <;> split_ifs <;> simp_all <;>
    rintro a b (⟨rfl, -⟩ | ⟨rfl, -⟩) <;> omega

/-- Witness for C5 at a concrete first-pass success. -/
theorem c5_allocation_discipline_witness :
    (portable_vasprintf (some ['h', 'i']) none true true ⟨false⟩).frees.Nodup :=
  (c5_allocation_discipline (some ['h', 'i']) none true true ⟨false⟩).2.1

/-- Claim C6 is contradicted by the code: every call of the builder executes
std::raise(SIGINT) before formatting (string_tools.cpp:51), and the variadic
wrapper raises a second time (string_tools.cpp:100), so each formatting call
raises one signal (two through the wrapper) — the claim says none is ever
raised. -/
theorem c6_signal_raised :
    (∀ r1 r2 m1 m2 ap, (portable_vasprintf r1 r2 m1 m2 ap).signals = 1) ∧
    (∀ r1 r2 m1 m2, (portable_asprintf r1 r2 m1 m2).signals = 2) ∧
    (portable_vasprintf (some ['a', 'b', 'c']) none true true ⟨false⟩).signals = 1 := by
  have h1 : ∀ r1 r2 m1 m2 ap, (portable_vasprintf r1 r2 m1 m2 ap).signals = 1 ∧
      (portable_asprintf r1 r2 m1 m2).signals = 2 := by
    intro r1 r2 m1 m2 ap
    unfold portable_asprintf portable_vasprintf vsnprintfModel
    rcases r1 with _ | s1 <;> rcases r2 with _ | s2 <;> cases m1 <;> cases m2 <;>
      simp <;> split_ifs <;> simp
  exact ⟨fun r1 r2 m1 m2 ap => (h1 r1 r2 m1 m2 ap).1,
    fun r1 r2 m1 m2 => (h1 r1 r2 m1 m2 ⟨false⟩).2,
    (h1 (some ['a', 'b', 'c']) none true true ⟨false⟩).1⟩

/-- Claim C7 is false as stated: iterating `readLine` over "a\nb\n" yields
"a", "b", and then a third call that returns 0 with an empty line — not the
end-of-stream sentinel -1 — because the eof check precedes the read and the
failure flags of the empty final read are cleared. -/
theorem c7_counterexample :
    (readLines 3 (mkStream ['a', '\n', 'b', '\n']) []).map Prod.fst = [1, 1, 0] ∧
    ¬ ((readLines 3 (mkStream ['a', '\n', 'b', '\n']) []).map Prod.fst = [1, 1, -1]) := by
  decide

/-- Claim C7 (amended): `readLine` returns the sentinel -1 (leaving stream
and buffer untouched) exactly when the stream's end-of-file flag is set at
entry; over "a\nb" the calls yield "a", "b", then the sentinel, while over
"a\nb\n" they yield "a", "b", then an empty extraction of length 0 rather
than the sentinel; on a stream with clear flags the call extracts the
characters up to but not including the next newline and returns their
count. -/
theorem c7_readLine_amended (is : IStream) (l : List Char) (h : is.eofbit = true) :
    readLine is l = (is, -1, l) ∧
    readLines 3 (mkStream ['a', '\n', 'b']) [] =
      [(1, ['a']), (1, ['b']), (-1, ['b'])] ∧
    readLines 3 (mkStream ['a', '\n', 'b', '\n']) [] =
      [(1, ['a']), (1, ['b']), (0, [])] ∧
    (∀ is2 l2, is2.eofbit = false → is2.failbit = false →
      (readLine is2 l2).2.2 = (is2.data.drop is2.pos).takeWhile (fun c => c ≠ '\n') ∧
      (readLine is2 l2).2.1 =
        (((is2.data.drop is2.pos).takeWhile (fun c => c ≠ '\n')).length : Int)) := by
  refine ⟨?_, by decide, by decide, ?_⟩
  · unfold readLine
    rw [if_pos h]
  · intro is2 l2 he hf
    unfold readLine istreamGet
    rw [if_neg (by rw [he]; simp)]
    rw [he, hf]
    simp

/-- Witness for C7 (amended) on concrete streams. -/
theorem c7_readLine_amended_witness :
    readLine ⟨['a'], 1, true, false⟩ ['q'] = (⟨['a'], 1, true, false⟩, -1, ['q']) ∧
    (readLine (mkStream ['x', '\n', 'y']) []).2.2 = ['x'] := by
  refine ⟨(c7_readLine_amended ⟨['a'], 1, true, false⟩ ['q'] rfl).1, ?_⟩
  have h := (c7_readLine_amended ⟨['a'], 1, true, false⟩ ['q'] rfl).2.2.2
    (mkStream ['x', '\n', 'y']) [] rfl rfl
  rw [h.1]
  decide

/-- Claim C8: `strSplit` splits at every occurrence of any delimiter with no
collapsing (it coincides with the reference splitter `splitSpec`); an input
with no delimiter yields the single-element sequence holding the input, the
empty string yields a single empty token, and the concrete scenario
"a,,b," on "," yields ["a", "", "b", ""]. -/
theorem c8_split_no_collapsing (str delims : List Char) :
    strSplit str delims = splitSpec delims str ∧
    ((∀ c ∈ str, delims.contains c = false) → strSplit str delims = [str]) ∧
    strSplit [] delims = [[]] ∧
    strSplit ['a', ',', ',', 'b', ','] [','] = [['a'], [], ['b'], []] := by
  refine ⟨strSplit_eq_splitSpec str delims, ?_, ?_, ?_⟩
  · intro h
    rw [strSplit_eq_splitSpec, splitSpec_no_delim _ _ h]
  · rw [strSplit_eq_splitSpec]
    rfl
  · rw [strSplit_eq_splitSpec]
    decide

/-- Witness for C8 on a delimiter-free concrete input. -/
theorem c8_split_no_collapsing_witness :
    strSplit ['x', 'y'] [','] = [['x', 'y']] :=
  (c8_split_no_collapsing ['x', 'y'] [',']).2.1 (by decide)

/-- Claim C9: `trim` is idempotent; an input consisting only of whitespace
(space, tab, newline) trims to the empty string, and the empty input is
returned unchanged. -/
theorem c9_trim_idempotent (s : List Char) :
    trim (trim s) = trim s ∧
    ((∀ c ∈ s, isWs c = true) → trim s = []) ∧
    trim ([] : List Char) = [] := by
  refine ⟨?_, ?_, rfl⟩
  · by_cases hne : trim s = []
    · rw [hne]
      rfl
    · obtain ⟨hd, tl, u, z, hcons, hhd, happ, hz⟩ := trim_repr s hne
      set t := trim s with ht
      have hlen : ¬ (t.length = 0) := by
        rw [hcons]
        simp
      have hf : find_first_not_of t = some 0 := by
        rw [hcons]
        exact ffno_cons_not_ws hd tl hhd
      have hrev : t.reverse = z :: u.reverse := by
        rw [happ]
        simp
      have hfr : find_first_not_of t.reverse = some 0 := by
        rw [hrev]
        exact ffno_cons_not_ws z u.reverse hz
      have hfl : find_last_not_of t = some (t.length - 1) := by
        unfold find_last_not_of
        rw [hfr]
        rfl
      unfold trim
      rw [if_neg hlen, hf, hfl]
      show (t.drop 0).take (t.length - 1 - 0 + 1) = t
      have h1 : t.length - 1 - 0 + 1 = t.length := by
        rw [hcons]
        simp
      rw [List.drop_zero, h1, List.take_length]
  · intro hws
    unfold trim
    split_ifs with h0
    · exact List.length_eq_zero.mp h0
    · rw [ffno_none_of_all_ws s hws]

/-- Witness for C9 on concrete inputs. -/
theorem c9_trim_idempotent_witness :
    trim (trim [' ', 'a', '\t']) = trim [' ', 'a', '\t'] ∧
    trim [' ', '\t', '\n'] = [] :=
  ⟨(c9_trim_idempotent [' ', 'a', '\t']).1,
    (c9_trim_idempotent [' ', '\t', '\n']).2.1 (by decide)⟩

/-- Claim C10: whenever the underlying builder reports failure,
`formatString` returns the empty string with only a diagnostic emitted on
the error channel, and a successful render of an empty template also returns
the empty string, so the returned string alone cannot distinguish the two. -/
theorem c10_formatString_empty_on_failure (r1 r2 : Option (List Char)) (m1 m2 : Bool)
    (hfail : (portable_vasprintf r1 r2 m1 m2 ⟨false⟩).ret = -1) :
    formatString r1 r2 m1 m2 = ([], true) ∧
    formatString (some []) (some []) true true = ([], false) := by
  constructor
  · unfold formatString
    simp [hfail]
  · decide

/-- Witness for C10: a probe-pass format error versus an empty template. -/
theorem c10_formatString_empty_on_failure_witness :
    formatString none none true true = ([], true) ∧
    formatString (some []) (some []) true true = ([], false) :=
  c10_formatString_empty_on_failure none none true true (by decide)

end G2o
